import Mathlib

/-!
Verification development for the go-chi-httplog-zap middleware.

We shallowly embed the library's behaviour in Lean:
* header redaction (`httpHeaderLog.MarshalLogObject`),
* request-body capture via a tee reader (`httpRequestLog.MarshalLogObject`),
* the interceptor's event trace (`ZapRequestLogger` with its deferred write),
* the response observer and the completion record (`zapLogEntry.Write`),
* panic logging (`zapLogEntry.Panic`),
* context-stored request loggers (`RawLogEntry`, `LogEntrySetField`,
  `LogEntrySetFields`).

Go maps become association lists, byte streams become lists of read
results, and mutation becomes explicit state passing.
-/

namespace Httplog

/-! ## Header redaction

`httpHeaderLog.MarshalLogObject` iterates over the header map; the key is
lowercased; the three sensitive names with at least one value are masked
with `"***"`; otherwise zero values are skipped, a single value is
emitted as-is, and several values are joined as a bracketed list. -/

/-- The fixed mask token used by `httpHeaderLog.MarshalLogObject`. -/
def maskedString : String := "***"

/-- Go's `strings.ToLower` restricted to the ASCII range relevant to
header names, written over the character list so it evaluates by kernel
reduction. -/
def goToLower (s : String) : String := ⟨s.data.map Char.toLower⟩

/-- Predicate on the already-lowercased header name matching the source's
condition `k == "authorization" || k == "cookie" || k == "set-cookie"`. -/
def sensitiveName (k : String) : Bool :=
  k = "authorization" || k = "cookie" || k = "set-cookie"

/-- The string built by the source's
`fmt.Sprintf("[%s]", strings.Join(v, "], ["))` for the multi-value case. -/
def bracketJoin (v : List String) : String :=
  "[" ++ String.intercalate "], [" v ++ "]"

/-- One iteration of the loop in `httpHeaderLog.MarshalLogObject`:
given a header name and its value list, the field emitted for it
(`none` when the loop continues without emitting). -/
def redactHeader (k0 : String) (v : List String) : Option (String × String) :=
  if sensitiveName (goToLower k0) ∧ v.length ≠ 0 then
    some (goToLower k0, maskedString)
  else
    match v with
    | [] => none
    | [x] => some (goToLower k0, x)
    | _ => some (goToLower k0, bracketJoin v)

/-- The whole of `httpHeaderLog.MarshalLogObject`: the Go map is embedded
as an association list (one entry per header name), and the emitted
fields are collected in iteration order. -/
def marshalHeaders (hs : List (String × List String)) : List (String × String) :=
  hs.filterMap (fun p => redactHeader p.1 p.2)

/-! ## Request-body capture

`httpRequestLog.MarshalLogObject` wraps `r.Body` in `io.TeeReader(r.Body, b)`,
drains it with `io.ReadAll` (discarding the error), logs the collected bytes
when non-empty, and replaces `r.Body` with `io.NopCloser(b)`.

A body stream is embedded as a list of read results: each successful read
yields a chunk of bytes (the tee reader copies it into the buffer before
returning it), and an error result stops `io.ReadAll`, which returns
whatever was accumulated so far together with the error. -/

/-- One result of a `Read` call on the request body stream. -/
inductive ReadResult where
  | chunk (bs : List Nat)
  | readErr
  deriving DecidableEq, Repr

/-- A body stream: the sequence of read results it produces. -/
def BodyStream := List ReadResult

/-- `io.ReadAll` applied to `io.TeeReader(r.Body, b)`: returns the bytes
accumulated before the first error (all bytes when no error occurs),
the final contents of the tee buffer `b`, and whether an error was hit.
The tee reader copies every successfully read chunk into `b`, so the
buffer tracks exactly the returned bytes. -/
def teeReadAll : List ReadResult → List Nat × List Nat × Bool
  | [] => ([], [], false)
  | ReadResult.readErr :: _ => ([], [], true)
  | ReadResult.chunk bs :: rest =>
    let r := teeReadAll rest
    (bs ++ r.1, bs ++ r.2.1, r.2.2)

/-- Result of the body-capture section of `httpRequestLog.MarshalLogObject`:
the emitted `body` field (omitted when the collected bytes are empty) and
the stream contents seen by downstream readers of the replaced body
(`io.NopCloser(b)` over the tee buffer). -/
structure BodyCapture where
  bodyField : Option (List Nat)
  newBody : List Nat
  deriving DecidableEq, Repr

/-- The body-capture part of `httpRequestLog.MarshalLogObject`, applied to a
request body stream. The read error, if any, is discarded
(`bytes, _ := io.ReadAll(reader)`): the snapshot is still produced. -/
def marshalRequestBody (s : List ReadResult) : BodyCapture :=
  let r := teeReadAll s
  { bodyField := if r.1.length ≠ 0 then some r.1 else none
    newBody := r.2.1 }

/-- A stream with no error result: every read succeeds until EOF. -/
def streamOk (s : List ReadResult) : Prop :=
  ReadResult.readErr ∉ s

/-- The bytes a stream carries: concatenation of its chunks up to the
first error. -/
def streamBytes (s : List ReadResult) : List Nat := (teeReadAll s).1

/-- The full body carried by a stream: the concatenation of all its
chunks. For an error-free stream this is what `streamBytes` collects. -/
def chunksJoin (s : List ReadResult) : List Nat :=
  (s.map fun r => match r with
    | ReadResult.chunk bs => bs
    | ReadResult.readErr => []).flatten

/-! ## The interceptor's event trace

`ZapRequestLogger` builds, per request: `entry := f.NewLogEntry(r)` (whose
body logs "Request started" before returning), registers a deferred
function that emits the completion record via `entry.Write`, and then calls
`next.ServeHTTP`. Go runs the deferred function on every exit from the
handler invocation — on normal return and during panic unwinding alike —
and a propagating panic keeps propagating after the defer runs.

The downstream handler chain is embedded by the list of log events it
emits (for a panicking handler wrapped in chi's `Recoverer`, that list
contains the panic record emitted before `ServeHTTP` returns) and by
whether a panic escapes it. -/

/-- Log events observable at the sink. `handlerEv` stands for any record the
downstream chain emits itself (application logs, the Recoverer's panic
record is `panicRec`). -/
inductive Ev where
  | started
  | panicRec
  | completed
  | handlerEv (n : Nat)
  deriving DecidableEq, Repr

/-- Behaviour of the downstream handler chain during one request: the
events it emits while running, and whether a panic escapes it. -/
structure HandlerRun where
  events : List Ev
  panics : Bool
  deriving DecidableEq, Repr

/-- The event trace of one request through `ZapRequestLogger`, with the flag
telling whether a panic keeps propagating past the middleware:
"Request started" is logged inside `NewLogEntry` before `ServeHTTP` is
called, and the deferred `entry.Write` logs "Request complete" on every
exit path, after which an escaping panic continues outward. -/
def zapRequestLoggerServe (h : HandlerRun) : List Ev × Bool :=
  (Ev.started :: h.events ++ [Ev.completed], h.panics)

/-! ## Response observer and completion record

`ZapRequestLogger` wraps the writer with
`middleware.NewWrapResponseWriter` and installs a tee buffer via
`ww.Tee(buf)`; the deferred function reads the teed bytes back and calls
`entry.Write(ww.Status(), ww.BytesWritten(), ww.Header(), elapsed, extra)`.
The wrap response writer itself is chi library code, absent from this
repository's sources; its model below follows the specification's
Response Observer contract. -/

/-- Modelled from the spec: chi's `middleware.WrapResponseWriter` (the
Response Observer), absent from the repository sources. It records every
explicit status set (first one wins, as later sets cannot reach the
client), counts bytes written, and tees a copy of every written chunk;
the recorded status defaults to 200 when never explicitly set. -/
structure WrapWriter where
  statusSet : Option Nat := none
  bytesWritten : Nat := 0
  teeBuf : List Nat := []
  deriving DecidableEq, Repr

/-- Modelled from the spec: the observer's status accessor — the implicit
default 200 is recorded when the handler never set a status. -/
def WrapWriter.status (w : WrapWriter) : Nat :=
  w.statusSet.getD 200

/-- One call the downstream handler performs on the wrapped writer. -/
inductive RespOp where
  | setStatus (code : Nat)
  | writeBytes (bs : List Nat)
  deriving DecidableEq, Repr

/-- Modelled from the spec: effect of one handler call on the observer. -/
def WrapWriter.step (w : WrapWriter) : RespOp → WrapWriter
  | RespOp.setStatus code =>
    match w.statusSet with
    | none => { w with statusSet := some code }
    | some _ => w
  | RespOp.writeBytes bs =>
    { w with
      bytesWritten := w.bytesWritten + bs.length
      teeBuf := w.teeBuf ++ bs }

/-- Modelled from the spec: the observer after the handler performed a
sequence of writer calls. -/
def runRespOps (ops : List RespOp) : WrapWriter :=
  ops.foldl WrapWriter.step ({} : WrapWriter)

/-- The explicit status codes occurring in a handler's writer calls. -/
def statusCalls (ops : List RespOp) : List Nat :=
  ops.filterMap (fun o => match o with
    | RespOp.setStatus code => some code
    | RespOp.writeBytes _ => none)

/-- The concatenation of all bytes a handler writes. -/
def writtenBytes (ops : List RespOp) : List Nat :=
  (ops.map (fun o => match o with
    | RespOp.setStatus _ => []
    | RespOp.writeBytes bs => bs)).flatten

/-- The fields of the "Request complete" record as marshalled by
`zapLogEntry.Write` via `httpResponseLog.MarshalLogObject`: status and
bytes always, the redacted headers when non-empty, the response body
only when the captured bytes are non-empty. -/
structure CompletionRecord where
  status : Nat
  bytes : Nat
  headerField : Option (List (String × String))
  bodyField : Option (List Nat)
  deriving DecidableEq, Repr

/-- `zapLogEntry.Write` composed with `httpResponseLog.MarshalLogObject`:
builds the "Request complete" record from the observed status, byte
count, headers and the extra body captured by the tee buffer. -/
def zapLogEntryWrite (status bytes : Nat) (header : List (String × List String))
    (extraBody : List Nat) : CompletionRecord :=
  { status := status
    bytes := bytes
    headerField := if header.length > 0 then some (marshalHeaders header) else none
    bodyField := if extraBody.length ≠ 0 then some extraBody else none }

/-- The deferred function of `ZapRequestLogger`: runs the handler's writer
calls against the freshly wrapped writer (with its tee buffer), reads the
teed response body back and emits the completion record. -/
def serveCompletion (ops : List RespOp) (header : List (String × List String)) :
    CompletionRecord :=
  let ww := runRespOps ops
  zapLogEntryWrite ww.status ww.bytesWritten header ww.teeBuf

/-! ## Panic logging

`zapLogEntry.Panic` logs one error-level record with the stringified
failure value and the captured stack, after rebuilding the logger with
`zap.AddStacktrace(zap.FatalLevel + 1)` so that zap's own automatic
stacktrace attachment never fires for it. -/

/-- zap's log levels with their numeric values
(`DebugLevel = -1`, …, `FatalLevel = 5`). -/
def debugLevel : Int := -1
def infoLevel : Int := 0
def warnLevel : Int := 1
def errorLevel : Int := 2
def fatalLevel : Int := 5

/-- Modelled from the spec: the logging sink's ambient
stack-trace-on-error behaviour. A zap logger carries the minimum level at
which it automatically attaches its own stack trace to a record
(a production logger uses `ErrorLevel`); `zap.AddStacktrace(lvl)`
replaces that threshold. -/
structure ZapCfg where
  stackMinLevel : Int
  deriving DecidableEq, Repr

/-- A record as accepted by the sink: level, message, string fields, and
whether the sink auto-attached its own stack trace to it. -/
structure SinkRecord where
  level : Int
  msg : String
  fields : List (String × String)
  autoStack : Bool
  deriving DecidableEq, Repr

/-- Modelled from the spec: emitting one leveled record on a logger; the
sink auto-attaches its stack trace exactly when the record's level
reaches the logger's stacktrace threshold. -/
def ZapCfg.emit (cfg : ZapCfg) (lvl : Int) (msg : String)
    (fields : List (String × String)) : SinkRecord :=
  { level := lvl, msg := msg, fields := fields
    autoStack := cfg.stackMinLevel ≤ lvl }

/-- `zap.Logger.WithOptions(zap.AddStacktrace(lvl))`: a copy of the logger
whose automatic-stacktrace threshold is `lvl`. -/
def withOptionsAddStacktrace (cfg : ZapCfg) (lvl : Int) : ZapCfg :=
  { cfg with stackMinLevel := lvl }

/-- `zapLogEntry.Panic`: the list of records it emits for a failure value
`v` (already stringified by `fmt.Sprintf` in the embedding) and captured
stack `stack`. -/
def zapLogEntryPanic (cfg : ZapCfg) (v stack : String) : List SinkRecord :=
  [(withOptionsAddStacktrace cfg (fatalLevel + 1)).emit errorLevel "Panic"
    [("panic", v), ("stack", stack)]]

/-! ## Context-stored request loggers

The logger is stored in the request context under
`middleware.LogEntryCtxKey` as a `*zapLogEntry` whose `Logger` field the
set-field helpers replace in place. The context slot is embedded as an
`Option zapLogEntry` (`none` covers an absent value, a value of the wrong
dynamic type, and a nil entry — all the cases where the source's type
assertion fails); the in-place mutation of the shared entry becomes
explicit state passing of that option. A zap logger itself is embedded by
its accumulated structured fields plus a no-op flag (`zap.NewNop`
discards every call). -/

/-- A zap logger: its accumulated `With` fields, and whether it is the
no-op logger that discards all calls. -/
structure ZLogger where
  noop : Bool
  fields : List (String × String)
  deriving DecidableEq, Repr

/-- `zap.NewNop()`: a logger that silently discards every call. -/
def nopLogger : ZLogger := { noop := true, fields := [] }

/-- `logger.With(field)`: a child logger with the field appended. -/
def ZLogger.withField (l : ZLogger) (k v : String) : ZLogger :=
  { l with fields := l.fields ++ [(k, v)] }

/-- A logging call such as `Info` on a retrieved logger: the record it
hands to the sink, or `none` when the logger is the no-op logger. -/
def ZLogger.info (l : ZLogger) (msg : String) : Option (String × List (String × String)) :=
  if l.noop then none else some (msg, l.fields)

/-- The `*zapLogEntry` stored under `middleware.LogEntryCtxKey`. -/
structure zapLogEntry where
  logger : ZLogger
  deriving DecidableEq, Repr

/-- The request context's logger slot: `none` when the type assertion on
`ctx.Value(middleware.LogEntryCtxKey)` fails. -/
def Ctx := Option zapLogEntry

/-- `RawLogEntry`: dereferences the stored entry's logger (a by-value
copy), or returns `*zap.NewNop()` when no entry is attached. It never
fails: it is total on every context. -/
def RawLogEntry (ctx : Ctx) : ZLogger :=
  match ctx with
  | some entry => entry.logger
  | none => nopLogger

/-- `LogEntry`: `RawLogEntry` wrapped in a sugared copy; the field set and
no-op behaviour are those of the raw logger. -/
def LogEntry (ctx : Ctx) : ZLogger :=
  RawLogEntry ctx

/-- `LogEntrySetField`: when an entry is attached, replaces its stored
logger by `entry.Logger.With(key, value)`; otherwise does nothing. -/
def LogEntrySetField (ctx : Ctx) (key value : String) : Ctx :=
  match ctx with
  | some entry => some { entry with logger := entry.logger.withField key value }
  | none => none

/-- `LogEntrySetFields`: folds `LogEntrySetField` over a field list (the
Go map is embedded as an association list). -/
def LogEntrySetFields (ctx : Ctx) (fields : List (String × String)) : Ctx :=
  fields.foldl (fun c p => LogEntrySetField c p.1 p.2) ctx

/-! ## Theorems: header redaction -/

/-- Headers with distinct names: `http.Header` keys are in canonical MIME
form, so distinct keys stay distinct after lowercasing. -/
def lowerKeysDistinct (hs : List (String × List String)) : Prop :=
  hs.Pairwise fun a b => goToLower a.1 ≠ goToLower b.1

theorem redactHeader_key {k : String} {v : List String} {p : String × String}
    (h : redactHeader k v = some p) : p.1 = goToLower k := by
  unfold redactHeader at h
  split at h
  · cases h; rfl
  · cases v with
    | nil => simp at h
    | cons a t =>
      cases t with
      | nil => cases h; rfl
      | cons b t' => cases h; rfl

theorem pairwise_key_eq {hs : List (String × List String)}
    (hdist : lowerKeysDistinct hs)
    {a b : String × List String} (ha : a ∈ hs) (hb : b ∈ hs)
    (hkey : goToLower a.1 = goToLower b.1) : a = b := by
  induction hs with
  | nil => cases ha
  | cons x t ih =>
    rw [lowerKeysDistinct, List.pairwise_cons] at hdist
    cases ha with
    | head =>
      cases hb with
      | head => rfl
      | tail _ hb' => exact absurd hkey (hdist.1 b hb')
    | tail _ ha' =>
      cases hb with
      | head => exact absurd hkey.symm (hdist.1 a ha')
      | tail _ hb' => exact ih hdist.2 ha' hb'

theorem redactHeader_sensitive {k : String} {v : List String}
    (hsens : sensitiveName (goToLower k) = true) (hne : v ≠ []) :
    redactHeader k v = some (goToLower k, maskedString) := by
  unfold redactHeader
  rw [if_pos]
  exact ⟨hsens, by simpa using hne⟩

theorem redactHeader_nil (k : String) : redactHeader k [] = none := by
  simp [redactHeader]

theorem redactHeader_one {k : String} (x : String)
    (hns : sensitiveName (goToLower k) = false) :
    redactHeader k [x] = some (goToLower k, x) := by
  unfold redactHeader
  rw [if_neg]
  rintro ⟨h1, -⟩
  simp [hns] at h1

theorem redactHeader_many {k : String} {v : List String}
    (hns : sensitiveName (goToLower k) = false) (hlen : 2 ≤ v.length) :
    redactHeader k v = some (goToLower k, bracketJoin v) := by
  match v, hlen with
  | a :: b :: t, _ =>
    unfold redactHeader
    rw [if_neg]
    rintro ⟨h1, -⟩
    simp [hns] at h1
  | [x], hlen => simp at hlen
  | [], hlen => simp at hlen

theorem marshalHeaders_key_spec {hs : List (String × List String)}
    (hdist : lowerKeysDistinct hs)
    {k : String} {v : List String} (hmem : (k, v) ∈ hs) {s : String}
    (hout : (goToLower k, s) ∈ marshalHeaders hs) :
    redactHeader k v = some (goToLower k, s) := by
  obtain ⟨q, hq, hq2⟩ := List.mem_filterMap.mp hout
  have hkey : goToLower k = goToLower q.1 := redactHeader_key hq2
  have : (k, v) = q := pairwise_key_eq hdist hmem hq hkey
  rw [← this] at hq2
  exact hq2

/-- C3: a header whose name case-insensitively equals authorization,
cookie, or set-cookie and has at least one value appears in the redacted
output as exactly the mask token "***" under the lowercased name, and no
other value appears under that name, regardless of how many values the
header has. -/
theorem sensitiveHeadersMasked (hs : List (String × List String)) (k : String)
    (v : List String) (hdist : lowerKeysDistinct hs) (hmem : (k, v) ∈ hs)
    (hsens : sensitiveName (goToLower k) = true) (hne : v ≠ []) :
    (goToLower k, maskedString) ∈ marshalHeaders hs ∧
      ∀ s, (goToLower k, s) ∈ marshalHeaders hs → s = maskedString := by
  have hred : redactHeader k v = some (goToLower k, maskedString) :=
    redactHeader_sensitive hsens hne
  refine ⟨List.mem_filterMap.mpr ⟨(k, v), hmem, hred⟩, fun s hout => ?_⟩
  have h2 := hred.symm.trans (marshalHeaders_key_spec hdist hmem hout)
  simpa using h2.symm

/-- C3 witness: an Authorization header with a secret value is emitted as
"***" under "authorization", and nothing else is emitted under that
name. -/
theorem sensitiveHeadersMasked_witness :
    ("authorization", "***") ∈ marshalHeaders [("Authorization", ["secret"])] ∧
      ∀ s, ("authorization", s) ∈ marshalHeaders [("Authorization", ["secret"])] →
        s = "***" := by
  have h := sensitiveHeadersMasked [("Authorization", ["secret"])] "Authorization"
    ["secret"] (by unfold lowerKeysDistinct; decide) (by simp) (by decide) (by decide)
  have hlow : goToLower "Authorization" = "authorization" := by decide
  rw [hlow] at h
  simpa [maskedString] using h

/-- C8: a non-sensitive header with zero values is absent from the
redacted output; with exactly one value, the output under the lowercased
name is that value unmodified; with two or more values, the output under
the lowercased name is the bracketed comma-separated join of the values
in their original order. -/
theorem nonsensitiveHeaderFormatting (hs : List (String × List String))
    (k : String) (v : List String) (hdist : lowerKeysDistinct hs)
    (hmem : (k, v) ∈ hs) (hns : sensitiveName (goToLower k) = false) :
    (v = [] → ∀ s, (goToLower k, s) ∉ marshalHeaders hs) ∧
      (∀ x, v = [x] → (goToLower k, x) ∈ marshalHeaders hs ∧
        ∀ s, (goToLower k, s) ∈ marshalHeaders hs → s = x) ∧
      (2 ≤ v.length → (goToLower k, bracketJoin v) ∈ marshalHeaders hs ∧
        ∀ s, (goToLower k, s) ∈ marshalHeaders hs → s = bracketJoin v) := by
  refine ⟨fun hv s hout => ?_, fun x hv => ?_, fun hlen => ?_⟩
  · have h2 := marshalHeaders_key_spec hdist hmem hout
    rw [hv, redactHeader_nil] at h2
    cases h2
  · subst hv
    have hred := redactHeader_one x hns
    refine ⟨List.mem_filterMap.mpr ⟨(k, [x]), hmem, hred⟩, fun s hout => ?_⟩
    have h2 := hred.symm.trans (marshalHeaders_key_spec hdist hmem hout)
    simpa using h2.symm
  · have hred := @redactHeader_many k v hns hlen
    refine ⟨List.mem_filterMap.mpr ⟨(k, v), hmem, hred⟩, fun s hout => ?_⟩
    have h2 := hred.symm.trans (marshalHeaders_key_spec hdist hmem hout)
    simpa using h2.symm

/-- C8 witness: in a map with an empty-valued header, a single-valued
header and a two-valued header, the empty one is absent and the other two
are formatted as the value itself and as the bracketed join. -/
theorem nonsensitiveHeaderFormatting_witness :
    (∀ s, ("x-empty", s) ∉ marshalHeaders
      [("X-Empty", []), ("Accept", ["text/html"]), ("X-Multi", ["a", "b"])]) ∧
    ("accept", "text/html") ∈ marshalHeaders
      [("X-Empty", []), ("Accept", ["text/html"]), ("X-Multi", ["a", "b"])] ∧
    ("x-multi", "[a], [b]") ∈ marshalHeaders
      [("X-Empty", []), ("Accept", ["text/html"]), ("X-Multi", ["a", "b"])] := by
  have hdist : lowerKeysDistinct
      [("X-Empty", []), ("Accept", ["text/html"]), ("X-Multi", ["a", "b"])] := by
    unfold lowerKeysDistinct; decide
  have h1 := nonsensitiveHeaderFormatting _ "X-Empty" []
    hdist (by simp) (by decide)
  have h2 := nonsensitiveHeaderFormatting _ "Accept" ["text/html"]
    hdist (by simp) (by decide)
  have h3 := nonsensitiveHeaderFormatting _ "X-Multi" ["a", "b"]
    hdist (by simp) (by decide)
  have e1 : goToLower "X-Empty" = "x-empty" := by decide
  have e2 : goToLower "Accept" = "accept" := by decide
  have e3 : goToLower "X-Multi" = "x-multi" := by decide
  rw [e1] at h1
  rw [e2] at h2
  rw [e3] at h3
  refine ⟨fun s => h1.1 rfl s, (h2.2.1 "text/html" rfl).1, ?_⟩
  have := (h3.2.2 (by decide)).1
  have eb : bracketJoin ["a", "b"] = "[a], [b]" := by decide
  rwa [eb] at this

/-! ## Theorems: request-body capture -/

theorem teeReadAll_buf_eq (s : List ReadResult) :
    (teeReadAll s).2.1 = (teeReadAll s).1 := by
  induction s with
  | nil => rfl
  | cons r rest ih =>
    cases r with
    | readErr => rfl
    | chunk bs => simp [teeReadAll, ih]

theorem streamBytes_of_ok {s : List ReadResult} (hok : streamOk s) :
    streamBytes s = chunksJoin s := by
  induction s with
  | nil => rfl
  | cons r rest ih =>
    rw [streamOk, List.mem_cons, not_or] at hok
    cases r with
    | readErr => exact absurd rfl hok.1
    | chunk bs =>
      have := ih hok.2
      simp only [streamBytes, teeReadAll, chunksJoin, List.map_cons,
        List.flatten_cons] at this ⊢
      rw [this]

/-- C1: for an error-free request body stream carrying bytes B, after
`httpRequestLog.MarshalLogObject` captures the snapshot, the replaced body
stream seen by the downstream handler yields exactly B in order, and the
body field of the "Request started" record equals B, omitted entirely
when B is empty. -/
theorem requestBodyPreserved (s : List ReadResult) (B : List Nat)
    (hok : streamOk s) (hB : chunksJoin s = B) :
    (marshalRequestBody s).newBody = B ∧
      (marshalRequestBody s).bodyField = (if B = [] then none else some B) := by
  have hbytes : streamBytes s = B := (streamBytes_of_ok hok).trans hB
  constructor
  · show (teeReadAll s).2.1 = B
    rw [teeReadAll_buf_eq]
    exact hbytes
  · show (if (teeReadAll s).1.length ≠ 0 then some (teeReadAll s).1 else none) = _
    rw [show (teeReadAll s).1 = B from hbytes]
    rcases eq_or_ne B [] with h | h
    · simp [h]
    · simp [h, List.length_eq_zero]

/-- C1 witness: a stream yielding "hi" in two reads is passed through
byte-for-byte and logged as the body field. -/
theorem requestBodyPreserved_witness :
    (marshalRequestBody [ReadResult.chunk [104], ReadResult.chunk [105]]).newBody
        = [104, 105] ∧
      (marshalRequestBody [ReadResult.chunk [104], ReadResult.chunk [105]]).bodyField
        = some [104, 105] := by
  have h := requestBodyPreserved [ReadResult.chunk [104], ReadResult.chunk [105]]
    [104, 105] (by unfold streamOk; decide) (by decide)
  simpa using h

/-- C4 counterexample: on a stream that yields bytes 97, 98 and then
fails, the snapshot's body field is not empty — the partially read bytes
are logged, contradicting the claim that a capture failure yields an
empty body field with no body bytes logged. -/
theorem bodyCaptureFailure_cex :
    ¬ streamOk [ReadResult.chunk [97, 98], ReadResult.readErr] ∧
      (marshalRequestBody [ReadResult.chunk [97, 98], ReadResult.readErr]).bodyField
        = some [97, 98] := by
  constructor
  · unfold streamOk; decide
  · rfl

/-- C4 amended: if reading the request body stream fails during snapshot
capture, the read error is discarded and the snapshot still proceeds —
the body field holds the bytes read before the failure (omitted only when
no bytes were read), and the replaced downstream body yields those same
bytes. -/
theorem bodyCaptureFailureBestEffort (s : List ReadResult)
    (_herr : ¬ streamOk s) :
    (marshalRequestBody s).bodyField =
        (if streamBytes s = [] then none else some (streamBytes s)) ∧
      (marshalRequestBody s).newBody = streamBytes s := by
  constructor
  · show (if (teeReadAll s).1.length ≠ 0 then some (teeReadAll s).1 else none) = _
    rcases eq_or_ne (streamBytes s) [] with h | h
    · simp only [streamBytes] at h
      simp [streamBytes, h]
    · rw [if_neg h]
      rw [if_pos]
      simp only [streamBytes] at h ⊢
      simpa [List.length_eq_zero] using h
  · show (teeReadAll s).2.1 = _
    rw [teeReadAll_buf_eq]
    rfl

/-- C4 amended witness: a stream that yields byte 97 and then fails
still produces a snapshot, with the prefix as the body field. -/
theorem bodyCaptureFailureBestEffort_witness :
    (marshalRequestBody [ReadResult.chunk [97], ReadResult.readErr]).bodyField
        = some [97] ∧
      (marshalRequestBody [ReadResult.chunk [97], ReadResult.readErr]).newBody
        = [97] := by
  have h := bodyCaptureFailureBestEffort [ReadResult.chunk [97], ReadResult.readErr]
    (by unfold streamOk; decide)
  simpa using h

/-! ## Theorems: interceptor event ordering -/

theorem last_completed_index {l : List Ev} (hnc : Ev.completed ∉ l)
    (j : Fin (l ++ [Ev.completed]).length)
    (hj : (l ++ [Ev.completed]).get j = Ev.completed) : (j : Nat) = l.length := by
  rcases lt_or_ge (j : Nat) l.length with h | h
  · exfalso
    apply hnc
    rw [List.get_eq_getElem, List.getElem_append_left h] at hj
    rw [← hj]
    exact List.getElem_mem h
  · have hlen : (j : Nat) < l.length + 1 := by
      simpa using j.isLt
    omega

/-- C2: for every request, "Request started" is the first event of the
trace (emitted before any event of the downstream handler); "Request
complete" occurs exactly once, on every exit path — the deferred write
runs whether the handler returns normally or a panic escapes it; and any
panic record emitted during handling strictly precedes the completion
record of the same request. -/
theorem panic_before_completed {pre : List Ev} (hnc : Ev.completed ∉ pre)
    (i j : Fin (pre ++ [Ev.completed]).length)
    (hi : (pre ++ [Ev.completed]).get i = Ev.panicRec)
    (hj : (pre ++ [Ev.completed]).get j = Ev.completed) : (i : Nat) < (j : Nat) := by
  have hjlen : (j : Nat) = pre.length := last_completed_index hnc j hj
  have hine : (i : Nat) ≠ pre.length := by
    intro hieq
    have hij : i = j := Fin.ext (hieq.trans hjlen.symm)
    rw [hij, hj] at hi
    cases hi
  have hilt : (i : Nat) < pre.length + 1 := by
    simpa using i.isLt
  omega

/-- C2: for every request, "Request started" is the first event of the
trace (emitted before any event of the downstream handler); "Request
complete" occurs exactly once, on every exit path — the deferred write
runs whether the handler returns normally or a panic escapes it; and any
panic record emitted during handling strictly precedes the completion
record of the same request. -/
theorem interceptorOrdering (h : HandlerRun) (hnc : Ev.completed ∉ h.events) :
    (zapRequestLoggerServe h).1.head? = some Ev.started ∧
      (zapRequestLoggerServe h).1.count Ev.completed = 1 ∧
      ∀ i j : Fin (zapRequestLoggerServe h).1.length,
        (zapRequestLoggerServe h).1.get i = Ev.panicRec →
        (zapRequestLoggerServe h).1.get j = Ev.completed → (i : Nat) < (j : Nat) := by
  have hnc' : Ev.completed ∉ Ev.started :: h.events := by
    simp [hnc]
  refine ⟨rfl, ?_, ?_⟩
  · show ((Ev.started :: h.events) ++ [Ev.completed]).count Ev.completed = 1
    rw [List.count_append, List.count_eq_zero.mpr hnc']
    decide
  · intro i j hi hj
    exact @panic_before_completed (Ev.started :: h.events) hnc' i j hi hj

/-- C2 witness: a handler that logs one application event, emits a panic
record and lets the panic escape still yields a trace headed by the
started record, with exactly one completion record, and the panic record
strictly before it. -/
theorem interceptorOrdering_witness :
    (zapRequestLoggerServe ⟨[Ev.handlerEv 0, Ev.panicRec], true⟩).1.head?
        = some Ev.started ∧
      (zapRequestLoggerServe ⟨[Ev.handlerEv 0, Ev.panicRec], true⟩).1.count
        Ev.completed = 1 ∧
      ∀ i j : Fin (zapRequestLoggerServe ⟨[Ev.handlerEv 0, Ev.panicRec], true⟩).1.length,
        (zapRequestLoggerServe ⟨[Ev.handlerEv 0, Ev.panicRec], true⟩).1.get i
          = Ev.panicRec →
        (zapRequestLoggerServe ⟨[Ev.handlerEv 0, Ev.panicRec], true⟩).1.get j
          = Ev.completed → (i : Nat) < (j : Nat) :=
  interceptorOrdering ⟨[Ev.handlerEv 0, Ev.panicRec], true⟩ (by decide)

/-! ## Theorems: response observer and completion record -/

theorem runRespOps_statusSet (ops : List RespOp) (w : WrapWriter) :
    (ops.foldl WrapWriter.step w).statusSet =
      w.statusSet.or (statusCalls ops).head? := by
  induction ops generalizing w with
  | nil => simp [statusCalls]
  | cons op rest ih =>
    cases op with
    | setStatus code =>
      cases hw : w.statusSet with
      | none =>
        rw [List.foldl_cons, ih]
        simp [WrapWriter.step, hw, statusCalls]
      | some c =>
        rw [List.foldl_cons, ih]
        simp [WrapWriter.step, hw, statusCalls]
    | writeBytes bs =>
      rw [List.foldl_cons, ih]
      simp [WrapWriter.step, statusCalls]

theorem runRespOps_bytes (ops : List RespOp) (w : WrapWriter) :
    (ops.foldl WrapWriter.step w).bytesWritten =
      w.bytesWritten + (writtenBytes ops).length := by
  induction ops generalizing w with
  | nil => simp [writtenBytes]
  | cons op rest ih =>
    cases op with
    | setStatus code =>
      rw [List.foldl_cons, ih]
      cases hw : w.statusSet <;> simp [WrapWriter.step, hw, writtenBytes]
    | writeBytes bs =>
      rw [List.foldl_cons, ih]
      simp [WrapWriter.step, writtenBytes]
      omega

theorem runRespOps_teeBuf (ops : List RespOp) (w : WrapWriter) :
    (ops.foldl WrapWriter.step w).teeBuf = w.teeBuf ++ writtenBytes ops := by
  induction ops generalizing w with
  | nil => simp [writtenBytes]
  | cons op rest ih =>
    cases op with
    | setStatus code =>
      rw [List.foldl_cons, ih]
      cases hw : w.statusSet <;> simp [WrapWriter.step, hw, writtenBytes]
    | writeBytes bs =>
      rw [List.foldl_cons, ih]
      simp [WrapWriter.step, writtenBytes]

/-- C5: a handler that never explicitly sets a response status code
yields a "Request complete" record reporting status 200. -/
theorem defaultStatus200 (ops : List RespOp) (header : List (String × List String))
    (hnone : statusCalls ops = []) :
    (serveCompletion ops header).status = 200 := by
  show (runRespOps ops).status = 200
  unfold WrapWriter.status
  rw [runRespOps, runRespOps_statusSet, hnone]
  rfl

/-- C5 witness: a handler that only writes a byte, never setting a
status, is reported as status 200. -/
theorem defaultStatus200_witness :
    statusCalls [RespOp.writeBytes [104]] = [] ∧
      (serveCompletion [RespOp.writeBytes [104]] []).status = 200 := by
  refine ⟨by decide, defaultStatus200 [RespOp.writeBytes [104]] [] (by decide)⟩

/-- C6: a handler that sets status S (its only status call) and writes
response bytes R overall yields a "Request complete" record reporting
status S, bytes written equal to the length of R, and a captured response
body equal to R, with the body field omitted when R is empty. -/
theorem completionRecordReflectsResponse (ops : List RespOp)
    (header : List (String × List String)) (S : Nat) (R : List Nat)
    (hstat : statusCalls ops = [S]) (hbytes : writtenBytes ops = R) :
    (serveCompletion ops header).status = S ∧
      (serveCompletion ops header).bytes = R.length ∧
      (serveCompletion ops header).bodyField = (if R = [] then none else some R) := by
  refine ⟨?_, ?_, ?_⟩
  · show (runRespOps ops).status = S
    unfold WrapWriter.status
    rw [runRespOps, runRespOps_statusSet, hstat]
    rfl
  · show (runRespOps ops).bytesWritten = R.length
    rw [runRespOps, runRespOps_bytes, hbytes]
    simp
  · show (if (runRespOps ops).teeBuf.length ≠ 0 then some (runRespOps ops).teeBuf
      else none) = _
    rw [runRespOps, runRespOps_teeBuf, hbytes]
    rcases eq_or_ne R [] with h | h
    · simp [h]
    · simp [h, List.length_eq_zero]

/-- C6 witness: a handler setting status 404 and writing two bytes is
reported with status 404, two bytes written, and those bytes as the
captured body. -/
theorem completionRecordReflectsResponse_witness :
    (serveCompletion [RespOp.setStatus 404, RespOp.writeBytes [110, 111]] []).status
        = 404 ∧
      (serveCompletion [RespOp.setStatus 404, RespOp.writeBytes [110, 111]] []).bytes
        = 2 ∧
      (serveCompletion [RespOp.setStatus 404, RespOp.writeBytes [110, 111]] []).bodyField
        = some [110, 111] := by
  have h := completionRecordReflectsResponse
    [RespOp.setStatus 404, RespOp.writeBytes [110, 111]] [] 404 [110, 111]
    (by decide) (by decide)
  simpa using h

/-! ## Theorems: panic logging -/

/-- C7: for every logger configuration, an unhandled failure makes
`zapLogEntry.Panic` emit exactly one error-level "Panic" record whose
fields are the stringified failure value and the captured stack trace,
and the sink's automatic stack-trace attachment never fires for it (the
threshold is raised above the fatal level), so the record carries only
the one explicit stack trace. -/
theorem panicRecordSingleStack (cfg : ZapCfg) (v stack : String) :
    zapLogEntryPanic cfg v stack =
      [{ level := errorLevel, msg := "Panic",
         fields := [("panic", v), ("stack", stack)], autoStack := false }] := by
  unfold zapLogEntryPanic withOptionsAddStacktrace ZapCfg.emit
  have h : (decide (fatalLevel + 1 ≤ errorLevel)) = false := by decide
  rw [h]

/-! ## Theorems: context-stored request loggers -/

theorem setFields_none (fs : List (String × String)) :
    LogEntrySetFields none fs = none := by
  induction fs with
  | nil => rfl
  | cons p rest ih =>
    show LogEntrySetFields (LogEntrySetField none p.1 p.2) rest = none
    exact ih

/-- C9: retrieving the request-scoped logger returns the stored logger
when an entry is attached to the context, and otherwise the no-op logger
that discards every call; the set-field helpers on a context with no
attached entry leave it unchanged. All four operations are total
functions — retrieval and field setting never fail. -/
theorem contextRetrievalTotal :
    (∀ e, RawLogEntry (some e) = e.logger) ∧
      RawLogEntry none = nopLogger ∧
      (∀ e, LogEntry (some e) = e.logger) ∧
      LogEntry none = nopLogger ∧
      (∀ msg, nopLogger.info msg = none) ∧
      (∀ k v, LogEntrySetField none k v = none) ∧
      (∀ fs, LogEntrySetFields none fs = none) :=
  ⟨fun _ => rfl, rfl, fun _ => rfl, rfl, fun _ => rfl, fun _ _ => rfl, setFields_none⟩

/-- C10: retrieval returns a by-value copy of the logger stored at that
moment: a logger retrieved before a `LogEntrySetField` call does not
carry the newly added field, while a retrieval made after the call — and
the completion record, which reads the stored entry after the handler
ran — does carry it. -/
theorem retrievedLoggerIsSnapshot (e : zapLogEntry) (k v : String)
    (hnew : (k, v) ∉ e.logger.fields) :
    RawLogEntry (some e) = e.logger ∧
      (k, v) ∉ (RawLogEntry (some e)).fields ∧
      (k, v) ∈ (RawLogEntry (LogEntrySetField (some e) k v)).fields := by
  refine ⟨rfl, hnew, ?_⟩
  show (k, v) ∈ (e.logger.withField k v).fields
  simp [ZLogger.withField]

/-- C10 witness: on an entry holding a real logger with no fields, the
logger retrieved before the set-field call lacks the field and the one
retrieved afterwards carries it. -/
theorem retrievedLoggerIsSnapshot_witness :
    RawLogEntry (some ⟨⟨false, []⟩⟩) = (⟨false, []⟩ : ZLogger) ∧
      ("k", "v") ∉ (RawLogEntry (some ⟨⟨false, []⟩⟩)).fields ∧
      ("k", "v") ∈ (RawLogEntry (LogEntrySetField (some ⟨⟨false, []⟩⟩) "k" "v")).fields :=
  retrievedLoggerIsSnapshot ⟨⟨false, []⟩⟩ "k" "v" (by decide)

end Httplog
